import Mathlib

/-!
Shallow embedding of the resume-parser backend (`src/backend/main.py`) in Lean 4.

The embedding covers the code the frozen claims are about:
* `parse_month_year`, `diff_years`, `merge_ranges`, `estimate_experience_years`
  (experience estimation, lines 73-171 of `main.py`),
* `detect_degree_level` (lines 174-180),
* the per-candidate body of `apply_filters_and_scoring` (lines 292-379).

Modelling conventions, stated once:
* Python floats are modelled as `ℚ`; `round(x, 2)` is modelled as rounding to the
  nearest multiple of 1/100 (`Mathlib.round`, half-up at exact ties; Python uses
  the binary half-to-even rule, which agrees except at exact representable ties,
  none of which occur in the claims).
* `datetime(y, m, d)` values are modelled by their proleptic Gregorian ordinal
  (`toordinal`, 0001-01-01 = 1), an `Int`; all dates the code builds are at
  midnight, so `(e - s).days` is the ordinal difference.
* `datetime.now()` is injected as an explicit ordinal parameter `now`.
* spaCy sentence segmentation (`nlp(text).sents`) is an external collaborator
  (spec §6); it is injected as a parameter `sents : String → List String`.
* Strings are processed as `List Char`; `str.lower()` is ASCII lowering (all
  inputs of interest are ASCII).
-/

namespace ResumeParser

/-! ### Character classes used by the regular expressions in `main.py` -/

/-- The class `[A-Za-z]`. -/
def isAsciiLetter (c : Char) : Bool :=
  ('A' ≤ c && c ≤ 'Z') || ('a' ≤ c && c ≤ 'z')

/-- The class `[0-9]`, i.e. `\d` on ASCII input. -/
def isDigitChar (c : Char) : Bool :=
  '0' ≤ c && c ≤ '9'

/-- The class `\s` restricted to ASCII: space, tab, newline, CR, VT, FF. -/
def isSpaceChar (c : Char) : Bool :=
  c == ' ' || c == '\t' || c == '\n' || c == '\r' || c == '\x0b' || c == '\x0c'

/-- The class `\w` restricted to ASCII: letters, digits and underscore. -/
def isWordChar (c : Char) : Bool :=
  isAsciiLetter c || isDigitChar c || c == '_'

/-- The separator class of the two range patterns.  The source file literally
contains the bytes `[-\xc3\xa2\xe2\x82\xac\xe2\x80\x9c\xc3\xa2\xe2\x82\xac\xe2\x80\x9d]`
(a mojibake of en/em dash), so the class is the hyphen together with the four
characters U+00E2, U+20AC, U+201C, U+201D. -/
def isDashChar (c : Char) : Bool :=
  c == '-' || c == 'â' || c == '€' || c == '“' || c == '”'

/-- ASCII `str.lower()` on one character. -/
def asciiLower (c : Char) : Char :=
  if 'A' ≤ c && c ≤ 'Z' then Char.ofNat (c.toNat + 32) else c

/-- ASCII `str.lower()` on a character list. -/
def lowerL (cs : List Char) : List Char := cs.map asciiLower

/-- ASCII `str.lower()` on a string. -/
def lowerS (s : String) : String := String.mk (lowerL s.toList)

/-- Python `str.strip()` (whitespace from both ends). -/
def pyStrip (cs : List Char) : List Char :=
  ((cs.dropWhile isSpaceChar).reverse.dropWhile isSpaceChar).reverse

/-- Python `str.strip()` on a string. -/
def pyStripS (s : String) : String := String.mk (pyStrip s.toList)

/-- Whether `needle` is a prefix of `hay` (character-wise, used for literal matching). -/
def isPrefixOfL : List Char → List Char → Bool
  | [], _ => true
  | _ :: _, [] => false
  | n :: ns, h :: hs => n == h && isPrefixOfL ns hs

/-- Python `needle in hay` on strings: substring containment. -/
def isSubstrL (n : List Char) : List Char → Bool
  | [] => n.isEmpty
  | h :: hs => isPrefixOfL n (h :: hs) || isSubstrL n hs

/-- Python `a in b` on strings. -/
def isSubstrS (n hay : String) : Bool := isSubstrL n.toList hay.toList

/-- Case-insensitive literal prefix match (the literal is given lowercase). -/
def ciLiteral (lit : List Char) (cs : List Char) : Bool :=
  lowerL (cs.take lit.length) == lit

/-- Numeric value of a digit list (e.g. `['2','0','1','8']` ↦ 2018), Python `int`. -/
def digitsToNat (ds : List Char) : Nat :=
  ds.foldl (fun a c => a * 10 + (c.toNat - '0'.toNat)) 0

/-! ### Proleptic Gregorian calendar (Python `datetime.toordinal`) -/

/-- Gregorian leap-year test. -/
def isLeapYear (y : Nat) : Bool :=
  y % 4 == 0 && (y % 100 != 0 || y % 400 == 0)

/-- Days in the months of a common year. -/
def monthLengths : List Nat := [31, 28, 31, 30, 31, 30, 31, 31, 30, 31, 30, 31]

/-- Days before month `m` (1-based) in year `y`. -/
def daysBeforeMonth (y m : Nat) : Nat :=
  (monthLengths.take (m - 1)).sum + (if 2 < m && isLeapYear y then 1 else 0)

/-- Python `datetime(y, m, d).toordinal()`: days since 0000-12-31 (0001-01-01 = 1). -/
def toOrdinal (y m d : Nat) : Int :=
  (365 * (y - 1) + (y - 1) / 4 - (y - 1) / 100 + (y - 1) / 400
    + daysBeforeMonth y m + d : Int)

/-! ### `MONTH_MAP` and `parse_month_year` (main.py lines 49-93) -/

/-- Dictionary `MONTH_MAP` from `main.py`. -/
def MONTH_MAP : List (String × Nat) :=
  [("jan", 1), ("january", 1),
   ("feb", 2), ("february", 2),
   ("mar", 3), ("march", 3),
   ("apr", 4), ("april", 4),
   ("may", 5),
   ("jun", 6), ("june", 6),
   ("jul", 7), ("july", 7),
   ("aug", 8), ("august", 8),
   ("sep", 9), ("sept", 9), ("september", 9),
   ("oct", 10), ("october", 10),
   ("nov", 11), ("november", 11),
   ("dec", 12), ("december", 12)]

/-- Lookup `MONTH_MAP.get k` (dict lookup returning `None` on a missing key). -/
def monthMapGet (k : List Char) : Option Nat :=
  (MONTH_MAP.find? (fun p => p.1.toList == k)).map Prod.snd

/-- The anchored match `re.match(r"([A-Za-z]{3,9})\s+(\d{4})", s)`.
On success returns the two groups (month letters, year digits).  The quantifier
`{3,9}` backtracks, but any shorter-than-maximal letter run is followed by a
letter, on which `\s+` fails; hence the match succeeds exactly when the maximal
letter run has length 3..9 and is followed by at least one whitespace character
and then four digits. -/
def matchMonthYearGroups (cs : List Char) : Option (List Char × List Char) :=
  let letters := cs.takeWhile isAsciiLetter
  if 3 ≤ letters.length && letters.length ≤ 9 then
    let r1 := cs.drop letters.length
    let ws := r1.takeWhile isSpaceChar
    if ws.length == 0 then none
    else
      let ds := (r1.drop ws.length).take 4
      if ds.length == 4 && ds.all isDigitChar then some (letters, ds) else none
  else none

/-- Function `parse_month_year` (main.py lines 73-93), returning the ordinal of the
parsed date.  `datetime(int(yr), month or 1, 1)` raises (and the function
returns `None`) exactly when the year is 0; the month is a `MONTH_MAP` value
(1..12) or the default 1, and day 1 is always valid. -/
def parse_month_year (s : String) : Option Int :=
  let cs := pyStrip s.toList
  if cs.isEmpty then none
  else
    match matchMonthYearGroups cs with
    | some (mon, yrds) =>
        let yr := digitsToNat yrds
        let month := (monthMapGet (lowerL (mon.take 3))).orElse
          (fun _ => monthMapGet (lowerL mon))
        if yr == 0 then none else some (toOrdinal yr (month.getD 1) 1)
    | none =>
        -- `re.match(r"(\d{4})", s)`
        let ds := cs.take 4
        if ds.length == 4 && ds.all isDigitChar then
          let yr := digitsToNat ds
          if yr == 0 then none else some (toOrdinal yr 1 1)
        else none

/-! ### `diff_years` and `merge_ranges` (main.py lines 96-112) -/

/-- Function `diff_years` (main.py lines 96-98): `(end - start).days / 365.25`, floored
at 0.  Both endpoints are midnight datetimes, so `.days` is the ordinal
difference. -/
def diff_years (s e : Int) : ℚ :=
  max 0 ((e - s : Int) / (36525 / 100 : ℚ))

/-- The comparison used by `sorted(ranges, key=lambda x: x[0])`. -/
def leStart (a b : Int × Int) : Prop := a.1 ≤ b.1

instance : DecidableRel leStart := fun a b => inferInstanceAs (Decidable (a.1 ≤ b.1))

instance : IsTotal (Int × Int) leStart := ⟨fun a b => le_total a.1 b.1⟩

instance : IsTrans (Int × Int) leStart := ⟨fun _ _ _ h h' => le_trans h h'⟩

/-- The merging loop of `merge_ranges`: `merged` ends with the accumulator
interval, which later intervals may extend. -/
def mergeLoop : Int × Int → List (Int × Int) → List (Int × Int)
  | (ps, pe), [] => [(ps, pe)]
  | (ps, pe), (cs, ce) :: rest =>
      if cs ≤ pe then mergeLoop (ps, max pe ce) rest
      else (ps, pe) :: mergeLoop (cs, ce) rest

/-- Function `merge_ranges` (main.py lines 101-112).  `sorted` with key `x[0]` is a
stable sort by the start; `List.insertionSort leStart` computes exactly that
(stable sorts agree on all inputs). -/
def merge_ranges (ranges : List (Int × Int)) : List (Int × Int) :=
  match ranges.insertionSort leStart with
  | [] => []
  | r :: rs => mergeLoop r rs

/-! ### The two range patterns of `estimate_experience_years` (main.py 119-150)

`re.finditer` tries a match at each position, left to right; after a successful
match it continues just past the matched text, after a failed attempt it
advances one character.  The matchers below return, besides the captured
groups, the length of the whole match. -/

/-- Attempt of the sub-pattern `[A-Za-z]{3,9}\s+\d{4}` at the head of `cs`.
Returns (matched text, matched length).  As for `matchMonthYearGroups`,
backtracking inside the quantifiers collapses: the letter run must be maximal
(length 3..9), the whitespace run maximal (length ≥ 1), then four digits. -/
def matchMYToken (cs : List Char) : Option (List Char × Nat) :=
  let letters := cs.takeWhile isAsciiLetter
  if 3 ≤ letters.length && letters.length ≤ 9 then
    let r1 := cs.drop letters.length
    let ws := r1.takeWhile isSpaceChar
    if ws.length == 0 then none
    else
      let ds := (r1.drop ws.length).take 4
      if ds.length == 4 && ds.all isDigitChar then
        some (letters ++ ws ++ ds, letters.length + ws.length + 4)
      else none
  else none

/-- Attempt of `pattern_month_range` = `([A-Za-z]{3,9}\s+\d{4})\s*[-…]\s*`
`(Present|Now|(?:[A-Za-z]{3,9}\s+\d{4}))` (IGNORECASE) at the head of `cs`.
Returns (group 1, group 2, matched length).  The alternation is tried left to
right: the literal `Present`, the literal `Now`, then a month-year token. -/
def matchMonthRangeAt (cs : List Char) : Option (String × String × Nat) :=
  match matchMYToken cs with
  | none => none
  | some (tok1, n1) =>
    let r := cs.drop n1
    let ws1 := r.takeWhile isSpaceChar
    match r.drop ws1.length with
    | [] => none
    | d :: r3 =>
      if isDashChar d then
        let ws2 := r3.takeWhile isSpaceChar
        let r4 := r3.drop ws2.length
        let base := n1 + ws1.length + 1 + ws2.length
        if ciLiteral "present".toList r4 then
          some (String.mk tok1, String.mk (r4.take 7), base + 7)
        else if ciLiteral "now".toList r4 then
          some (String.mk tok1, String.mk (r4.take 3), base + 3)
        else
          match matchMYToken r4 with
          | some (tok2, n2) => some (String.mk tok1, String.mk tok2, base + n2)
          | none => none
      else none

/-- Attempt of `pattern_year_range` = `(\d{4})\s*[-…]\s*(Present|Now|\d{4})`
(IGNORECASE) at the head of `cs`. -/
def matchYearRangeAt (cs : List Char) : Option (String × String × Nat) :=
  let ds := cs.take 4
  if ds.length == 4 && ds.all isDigitChar then
    let r := cs.drop 4
    let ws1 := r.takeWhile isSpaceChar
    match r.drop ws1.length with
    | [] => none
    | d :: r3 =>
      if isDashChar d then
        let ws2 := r3.takeWhile isSpaceChar
        let r4 := r3.drop ws2.length
        let base := 4 + ws1.length + 1 + ws2.length
        if ciLiteral "present".toList r4 then
          some (String.mk ds, String.mk (r4.take 7), base + 7)
        else if ciLiteral "now".toList r4 then
          some (String.mk ds, String.mk (r4.take 3), base + 3)
        else
          let ds2 := r4.take 4
          if ds2.length == 4 && ds2.all isDigitChar then
            some (String.mk ds, String.mk ds2, base + 4)
          else none
      else none
  else none

/-- The `finditer` scan with a position-wise matcher, structurally recursive on a
fuel argument.  A successful match at `c :: rest` has length `L ≥ 1`, so
continuing past it is `rest.drop (L - 1)`; every step consumes at least one
character, so fuel equal to the list length (as supplied by `scanWith`) never
runs out. -/
def scanWithF (m : List Char → Option (String × String × Nat)) :
    Nat → List Char → List (String × String)
  | 0, _ => []
  | _, [] => []
  | fuel + 1, c :: rest =>
    match m (c :: rest) with
    | some (a, b, L) => (a, b) :: scanWithF m fuel (rest.drop (L - 1))
    | none => scanWithF m fuel rest

/-- The `finditer` scan with a position-wise matcher. -/
def scanWith (m : List Char → Option (String × String × Nat))
    (cs : List Char) : List (String × String) :=
  scanWithF m cs.length cs

/-- The `pattern_month_range.finditer(text)` loop (main.py 124-132): each match
is kept when the start parses, the end is `present`/`now` (→ `now`) or parses,
and `e >= s`. -/
def monthRangesOf (now : Int) (text : String) : List (Int × Int) :=
  (scanWith matchMonthRangeAt text.toList).filterMap fun p =>
    match parse_month_year p.1 with
    | none => none
    | some s =>
      let e? : Option Int :=
        if lowerS p.2 == "present" || lowerS p.2 == "now" then some now
        else parse_month_year p.2
      match e? with
      | none => none
      | some e => if s ≤ e then some (s, e) else none

/-- The `pattern_year_range.finditer(text)` loop (main.py 136-150): the start
year is anchored to Jan 1, a numeric end year to Dec 31; `datetime` raises
(and the match is skipped) exactly when a year is 0. -/
def yearRangesOf (now : Int) (text : String) : List (Int × Int) :=
  (scanWith matchYearRangeAt text.toList).filterMap fun p =>
    let sy := digitsToNat p.1.toList
    if sy == 0 then none
    else
      let s := toOrdinal sy 1 1
      let e? : Option Int :=
        if lowerS p.2 == "present" || lowerS p.2 == "now" then some now
        else
          let ey := digitsToNat p.2.toList
          if ey == 0 then none else some (toOrdinal ey 12 31)
      match e? with
      | none => none
      | some e => if s ≤ e then some (s, e) else none

/-- All dated ranges collected by `estimate_experience_years` before the
fallbacks: month-range matches first, then year-range matches. -/
def rangesOf (now : Int) (text : String) : List (Int × Int) :=
  monthRangesOf now text ++ yearRangesOf now text

/-! ### The year-group fallback scan `re.findall(r"\b(19|20)\d{2}\b", text)` -/

/-- Scan for `\b(19|20)\d{2}\b` carrying the previous character for the word
boundaries, structurally recursive on a fuel argument (each step consumes at
least one character, so fuel equal to the list length never runs out).
`re.findall` returns the *group* matches, i.e. the two-character century
prefixes `"19"` / `"20"`, not the full years. -/
def yearGroupScanF (prev : Option Char) : Nat → List Char → List String
  | 0, _ => []
  | fuel + 1, d1 :: d2 :: d3 :: d4 :: tail =>
      if (match prev with | none => true | some p => !isWordChar p)
          && ((d1 == '1' && d2 == '9') || (d1 == '2' && d2 == '0'))
          && isDigitChar d3 && isDigitChar d4
          && (match tail.head? with | none => true | some n => !isWordChar n) then
        String.mk [d1, d2] :: yearGroupScanF (some d4) fuel tail
      else yearGroupScanF (some d1) fuel (d2 :: d3 :: d4 :: tail)
  | fuel + 1, c :: rest => yearGroupScanF (some c) fuel rest
  | _, [] => []

/-- Comprehension `[int(y) for y in re.findall(r"\b(19|20)\d{2}\b", text)]` (main.py 164). -/
def yearsFoundOf (text : String) : List Int :=
  (yearGroupScanF none text.toList.length text.toList).map
    fun s => (digitsToNat s.toList : Int)

/-! ### `estimate_experience_years` (main.py lines 115-171) -/

/-- Python `round(x, 2)`: round to the nearest multiple of 1/100. -/
def round2 (q : ℚ) : ℚ := (round (q * 100) : ℚ) / 100

/-- Total duration of a merged interval list: `sum(diff_years(s, e) ...)`. -/
def totalYears (l : List (Int × Int)) : ℚ :=
  (l.map fun p => diff_years p.1 p.2).sum

/-- Function `estimate_experience_years` (main.py lines 115-171).  `sents` is the
external sentence segmentation (spaCy), `now` the injected current date.
Tier 1: merged dated ranges; tier 2: count of sentences containing
"experience"; tier 3: spread of the `findall` year groups; else 0.0. -/
def estimate_experience_years (sents : String → List String) (now : Int)
    (text : String) : ℚ :=
  let ranges := rangesOf now text
  if ranges.isEmpty then
    let experience_sentences :=
      (sents text).filter fun st => isSubstrS "experience" (lowerS st)
    if experience_sentences.isEmpty then
      let years_found := yearsFoundOf text
      match years_found with
      | y :: z :: rest =>
          ((min ((rest.foldl max (max y z)) - (rest.foldl min (min y z))) 50 : Int) : ℚ)
      | _ => 0
    else ((min experience_sentences.length 40 : Nat) : ℚ)
  else round2 (min (totalYears (merge_ranges ranges)) 50)

/-! ### `DEGREE_LEVELS` and `detect_degree_level` (main.py lines 64-70, 174-180) -/

/-- Dictionary `DEGREE_LEVELS` from `main.py`, in its (insertion-ordered) iteration
order. -/
def DEGREE_LEVELS : List (String × List String) :=
  [("highschool", ["high school", "smk", "sma"]),
   ("diploma", ["diploma", "associate"]),
   ("bachelor", ["bachelor", "sarjana", "s1", "b.sc", "bsc", "bs"]),
   ("master", ["master", "msc", "m.sc", "s2", "magister", "ms"]),
   ("phd", ["phd", "doctorate", "s3", "dr."])]

/-- Word-boundary test of `\b` between two optional characters (a string edge
counts as non-word): the boundary holds when exactly one side is a word
character. -/
def boundaryBetween (a b : Option Char) : Bool :=
  (match a with | none => false | some c => isWordChar c)
    != (match b with | none => false | some c => isWordChar c)

/-- One attempt of `re.search(rf"\b{re.escape(kw)}\b", text)` at a fixed
position: the keyword matches literally and both ends sit on a word
boundary.  `prev` is the character before the position. -/
def wordMatchHere (kw : List Char) (prev : Option Char) (cs : List Char) : Bool :=
  isPrefixOfL kw cs
    && boundaryBetween prev kw.head?
    && boundaryBetween kw.getLast? (cs.drop kw.length).head?

/-- The call `re.search(rf"\b{re.escape(kw)}\b", text)` as a Boolean: some position
matches.  (`re.escape` makes every keyword character a literal.) -/
def wordSearchAux (kw : List Char) (prev : Option Char) : List Char → Bool
  | [] => false
  | c :: rest => wordMatchHere kw prev (c :: rest) || wordSearchAux kw (some c) rest

/-- Whole-word search of `kw` in `text`. -/
def wordSearch (kw : List Char) (text : List Char) : Bool :=
  wordSearchAux kw none text

/-- Function `detect_degree_level` (main.py lines 174-180): join the snippets with a
space, lowercase, and return the first level (in `DEGREE_LEVELS` order) one of
whose keywords occurs as a whole word. -/
def detect_degree_level (edu_snippets : List String) : Option String :=
  let text := lowerL (String.intercalate " " edu_snippets).toList
  (DEGREE_LEVELS.find? fun lv => lv.2.any fun kw => wordSearch kw.toList text).map
    Prod.fst

/-! ### Data model of `apply_filters_and_scoring` (main.py lines 226-232, 281-382) -/

/-- The fields of a parsed resume record read by the scoring loop.
`total_experience_years` is stored as the number itself (`float(... or 0.0)`
in the code collapses a missing/zero value to 0.0, which the field already
represents). -/
structure CandidateRecord where
  full_text : String
  skills_detected : List String
  education : List String
  total_experience_years : ℚ

/-- Model of `FilterRequest` (main.py lines 226-232). -/
structure FilterRequest where
  skills : List String := []
  min_experience : Option ℚ := none
  education : Option String := none
  keywords : List String := []
  min_score : Option ℚ := some 0
  mode : String := "strict"

/-- The per-candidate result dictionary (the fields the claims are about;
`weights` holds the four rounded sub-percentages). -/
structure ScoreResult where
  skills_matched : List String
  skills_missing : List String
  total_experience_years : ℚ
  education_found_level : Option String
  keywords_matched : List String
  keywords_missing : List String
  score : ℚ
  passed : Bool
  reject_reasons : List String
  mode_used : String
  weights : ℚ × ℚ × ℚ × ℚ

/-- The canonical level list
`["highschool", "diploma", "bachelor", "master", "phd"]` (main.py 315-317). -/
def LEVELS : List String := ["highschool", "diploma", "bachelor", "master", "phd"]

/-- Local `req_skills = [s.strip().lower() for s in req.skills if s and s.strip()]`. -/
def reqSkillsOf (req : FilterRequest) : List String :=
  (req.skills.filter fun s => s ≠ "" && pyStripS s ≠ "").map
    fun s => lowerS (pyStripS s)

/-- Local `req_keywords = [k.strip().lower() for k in req.keywords if k and k.strip()]`. -/
def reqKeywordsOf (req : FilterRequest) : List String :=
  (req.keywords.filter fun k => k ≠ "" && pyStripS k ≠ "").map
    fun k => lowerS (pyStripS k)

/-- Local `matched_skills` (main.py 301): required skills found as a substring of the
lowered full text or among the lowered detected skills. -/
def matchedSkills (req : FilterRequest) (r : CandidateRecord) : List String :=
  (reqSkillsOf req).filter fun s =>
    isSubstrS s (lowerS r.full_text) || (r.skills_detected.map lowerS).contains s

/-- Local `missing_skills` (main.py 302). -/
def missingSkills (req : FilterRequest) (r : CandidateRecord) : List String :=
  (reqSkillsOf req).filter fun s => !(matchedSkills req r).contains s

/-- Local `skill_percent` (main.py 303). -/
def skillPercent (req : FilterRequest) (r : CandidateRecord) : ℚ :=
  if reqSkillsOf req ≠ [] then
    ((matchedSkills req r).length : ℚ) / ((reqSkillsOf req).length : ℚ) * 100
  else 100

/-- Local `exp_percent` (main.py 307).  `not req.min_experience` is Python
truthiness: it holds for `None` and for `0.0`. -/
def expPercent (req : FilterRequest) (r : CandidateRecord) : ℚ :=
  match req.min_experience with
  | none => 100
  | some me =>
      if me = 0 then 100
      else round2 (min 100 (r.total_experience_years / me * 100))

/-- Local `req_edu = (req.education or "").strip().lower()` (main.py 310). -/
def reqEduOf (req : FilterRequest) : String :=
  lowerS (pyStripS (req.education.getD ""))

/-- The education rejection test (main.py 313-318).  The conditional
expression `A if C else -1` evaluates to the truthy `-1` when the required
token is not canonical, so a non-canonical non-empty requirement always
rejects; `LEVELS.index(found_degree)` is only reached with `found_degree`
drawn from the canonical names (`detect_degree_level` returns no others). -/
def eduReject (req : FilterRequest) (r : CandidateRecord) : Bool :=
  let req_edu := reqEduOf req
  if req_edu ≠ "" then
    match detect_degree_level r.education with
    | none => true
    | some found =>
        if LEVELS.contains req_edu then
          decide (LEVELS.indexOf found < LEVELS.indexOf req_edu)
        else true
  else false

/-- Local `edu_percent` (main.py 312-318). -/
def eduPercent (req : FilterRequest) (r : CandidateRecord) : ℚ :=
  if eduReject req r then 0 else 100

/-- Local `matched_keywords` (main.py 322): substring search in the lowered text. -/
def matchedKeywords (req : FilterRequest) (r : CandidateRecord) : List String :=
  (reqKeywordsOf req).filter fun k => isSubstrS k (lowerS r.full_text)

/-- Local `missing_keywords` (main.py 323). -/
def missingKeywords (req : FilterRequest) (r : CandidateRecord) : List String :=
  (reqKeywordsOf req).filter fun k => !(matchedKeywords req r).contains k

/-- Local `keyword_percent` (main.py 324). -/
def keywordPercent (req : FilterRequest) (r : CandidateRecord) : ℚ :=
  if reqKeywordsOf req ≠ [] then
    ((matchedKeywords req r).length : ℚ) / ((reqKeywordsOf req).length : ℚ) * 100
  else 100

/-- The education rejection reason (main.py 333).  The Python f-string wraps
the two levels in single quotes; the quote characters are omitted here (no
claim inspects the text of a reason). -/
def eduReason (req : FilterRequest) (r : CandidateRecord) : String :=
  "Candidate education level " ++
    ((detect_degree_level r.education).getD "not found") ++
    " does not meet requirement " ++ reqEduOf req

/-- Local `reject_reasons` (main.py 327-335), in the fixed order skills, experience,
education, keywords.  Numeric interpolation uses `ℚ`'s `toString` in place of
Python float formatting (again, no claim inspects the text). -/
def rejectReasons (req : FilterRequest) (r : CandidateRecord) : List String :=
  (if missingSkills req r ≠ [] then
      ["Missing required skills: " ++ String.intercalate ", " (missingSkills req r)]
    else []) ++
  (match req.min_experience with
    | some me =>
        if r.total_experience_years < me then
          ["Only " ++ toString r.total_experience_years ++
            " years experience (requires " ++ toString me ++ ")"]
        else []
    | none => []) ++
  (if eduReject req r then [eduReason req r] else []) ++
  (if missingKeywords req r ≠ [] then
      ["Missing required keywords: " ++
        String.intercalate ", " (missingKeywords req r)]
    else [])

/-- The weighted composite score before rounding (main.py 338-343). -/
def rawScore (req : FilterRequest) (r : CandidateRecord) : ℚ :=
  skillPercent req r * 0.55 + expPercent req r * 0.25 +
    eduPercent req r * 0.10 + keywordPercent req r * 0.10

/-- Python `float(req.min_score or 0.0)`: `None` and `0.0` both give `0.0`. -/
def minScoreOf (req : FilterRequest) : ℚ := req.min_score.getD 0

/-- Local `passed` (main.py 345-349). -/
def passedOf (req : FilterRequest) (r : CandidateRecord) : Bool :=
  if req.mode == "strict" then
    decide (rejectReasons req r = []) && decide (minScoreOf req ≤ rawScore req r)
  else decide (minScoreOf req ≤ rawScore req r)

/-- The per-candidate body of `apply_filters_and_scoring` (main.py 292-379).
The surrounding loop over the candidate store and the final sort touch no
claim and are not embedded. -/
def scoreCandidate (req : FilterRequest) (r : CandidateRecord) : ScoreResult where
  skills_matched := matchedSkills req r
  skills_missing := missingSkills req r
  total_experience_years := r.total_experience_years
  education_found_level := detect_degree_level r.education
  keywords_matched := matchedKeywords req r
  keywords_missing := missingKeywords req r
  score := round2 (rawScore req r)
  passed := passedOf req r
  reject_reasons := rejectReasons req r
  mode_used := req.mode
  weights := (round2 (skillPercent req r), round2 (expPercent req r),
    round2 (eduPercent req r), round2 (keywordPercent req r))

/-! ### Concrete inputs used by the example parts of the theorems -/

/-- A candidate matching 4 of 5 required skills and 1 of 2 required keywords
of `scoringReq45`, with 5 years of experience. -/
def scoringCand45 : CandidateRecord where
  full_text := "worked with alpha, beta, gamma and delta; strong teamwork"
  skills_detected := []
  education := []
  total_experience_years := 5

/-- Five required skills, minimum experience 3, no education requirement, two
required keywords. -/
def scoringReq45 : FilterRequest where
  skills := ["alpha", "beta", "gamma", "delta", "epsilon"]
  min_experience := some 3
  education := none
  keywords := ["teamwork", "leadership"]
  min_score := some 0
  mode := "strict"

/-- A candidate with no matching data at all. -/
def blankCand : CandidateRecord where
  full_text := "nothing relevant here"
  skills_detected := []
  education := []
  total_experience_years := 0

/-- A strict-mode request that `blankCand` fails on skills while easily
clearing the minimum score. -/
def strictReq : FilterRequest where
  skills := ["zeta"]
  min_experience := none
  education := none
  keywords := []
  min_score := some 10
  mode := "strict"

/-- The same request in ranking mode. -/
def rankingReq : FilterRequest where
  skills := ["zeta"]
  min_experience := none
  education := none
  keywords := []
  min_score := some 10
  mode := "ranking"

/-- A request whose mode string is capitalized, hence not `"strict"`. -/
def oddModeReq : FilterRequest where
  skills := ["zeta"]
  min_experience := none
  education := none
  keywords := []
  min_score := some 10
  mode := "Strict"

/-- A request with empty skill and keyword criteria. -/
def emptyCriteriaReq : FilterRequest where
  skills := []
  min_experience := none
  education := none
  keywords := []
  min_score := some 0
  mode := "strict"

/-- A request whose required education token is not canonical. -/
def badEduReq : FilterRequest where
  skills := []
  min_experience := none
  education := some "bootcamp"
  keywords := []
  min_score := some 0
  mode := "strict"

/-- A candidate whose snippets classify as `bachelor`. -/
def bachelorCand : CandidateRecord where
  full_text := "resume text"
  skills_detected := []
  education := ["Bachelor of Science in Physics"]
  total_experience_years := 2

/-! ## Helper lemmas -/

/-- Rounding to two decimals fixes integers. -/
theorem round2_intCast (z : ℤ) : round2 ((z : ℚ)) = (z : ℚ) := by
  unfold round2
  rw [show (z : ℚ) * 100 = ((z * 100 : ℤ) : ℚ) by push_cast; ring, round_intCast]
  push_cast
  exact mul_div_cancel_right₀ _ (by norm_num)

/-- Rounding to two decimals preserves non-negativity. -/
theorem round2_nonneg {q : ℚ} (h : 0 ≤ q) : 0 ≤ round2 q := by
  unfold round2
  apply div_nonneg _ (by norm_num)
  have : (0 : ℤ) ≤ round (q * 100) := by
    rw [round_eq]
    have h0 : (0 : ℤ) = ⌊(0 : ℚ)⌋ := by norm_num
    rw [h0]
    exact Int.floor_mono (by linarith)
  exact_mod_cast this

/-- Rounding to two decimals preserves the bound 50. -/
theorem round2_le_50 {q : ℚ} (h : q ≤ 50) : round2 q ≤ 50 := by
  unfold round2
  rw [div_le_iff₀ (by norm_num : (0 : ℚ) < 100)]
  have : round (q * 100) ≤ round ((5000 : ℤ) : ℚ) := by
    rw [round_eq, round_eq]
    exact Int.floor_mono (by linarith)
  rw [round_intCast] at this
  exact_mod_cast le_trans this (by norm_num)

/-- The four sub-percentages of `scoringReq45` against `scoringCand45`. -/
theorem scoring45_pcts :
    skillPercent scoringReq45 scoringCand45 = 80 ∧
    expPercent scoringReq45 scoringCand45 = 100 ∧
    eduPercent scoringReq45 scoringCand45 = 100 ∧
    keywordPercent scoringReq45 scoringCand45 = 50 := by
  have h1 : reqSkillsOf scoringReq45 =
      ["alpha", "beta", "gamma", "delta", "epsilon"] := by decide
  have h2 : matchedSkills scoringReq45 scoringCand45 =
      ["alpha", "beta", "gamma", "delta"] := by decide
  have h3 : reqKeywordsOf scoringReq45 = ["teamwork", "leadership"] := by decide
  have h4 : matchedKeywords scoringReq45 scoringCand45 = ["teamwork"] := by decide
  have h5 : eduReject scoringReq45 scoringCand45 = false := by decide
  refine ⟨?_, ?_, ?_, ?_⟩
  · unfold skillPercent
    rw [h1, h2]
    norm_num
    decide
  · show (if (3 : ℚ) = 0 then (100 : ℚ)
      else round2 (min 100 (scoringCand45.total_experience_years / 3 * 100))) = 100
    rw [if_neg (by norm_num)]
    have hm : min (100 : ℚ) (scoringCand45.total_experience_years / 3 * 100) = 100 := by
      apply min_eq_left
      show (100 : ℚ) ≤ (5 : ℚ) / 3 * 100
      norm_num
    rw [hm]
    exact_mod_cast round2_intCast 100
  · simp [eduPercent, h5]
  · unfold keywordPercent
    rw [h3, h4]
    norm_num
    decide

/-! ## Theorems for the claims -/

/-- C1: for every candidate record and criteria, the composite score is
0.55·skillPct + 0.25·expPct + 0.10·eduPct + 0.10·keywordPct, rounded to two
decimals; and on a candidate with 4 of 5 required skills, minimum experience 3
against 5 years, no education requirement and 1 of 2 required keywords, the
four sub-percentages are 80, 100, 100, 50 and the composite score is exactly
84.00. -/
theorem composite_score_formula_and_example :
    (∀ (req : FilterRequest) (r : CandidateRecord),
      (scoreCandidate req r).score =
        round2 (0.55 * skillPercent req r + 0.25 * expPercent req r +
          0.10 * eduPercent req r + 0.10 * keywordPercent req r)) ∧
    skillPercent scoringReq45 scoringCand45 = 80 ∧
    expPercent scoringReq45 scoringCand45 = 100 ∧
    eduPercent scoringReq45 scoringCand45 = 100 ∧
    keywordPercent scoringReq45 scoringCand45 = 50 ∧
    (scoreCandidate scoringReq45 scoringCand45).score = 84 := by
  obtain ⟨p1, p2, p3, p4⟩ := scoring45_pcts
  refine ⟨fun req r => ?_, p1, p2, p3, p4, ?_⟩
  · show round2 (rawScore req r) = _
    unfold rawScore
    congr 1
    ring
  · show round2 (rawScore scoringReq45 scoringCand45) = 84
    have : rawScore scoringReq45 scoringCand45 = 84 := by
      unfold rawScore
      rw [p1, p2, p3, p4]
      norm_num
    rw [this]
    exact_mod_cast round2_intCast 84

/-- Evaluation of `rawScore` on `blankCand` for the requests whose only
criterion is the missing skill `"zeta"`. -/
theorem zeta_blank_rawScore (req : FilterRequest) (hs : req.skills = ["zeta"])
    (hme : req.min_experience = none) (hed : req.education = none)
    (hk : req.keywords = []) : rawScore req blankCand = 45 := by
  have h1 : reqSkillsOf req = ["zeta"] := by
    unfold reqSkillsOf
    rw [hs]
    decide
  have h2 : matchedSkills req blankCand = [] := by
    unfold matchedSkills
    rw [h1]
    decide
  have h3 : skillPercent req blankCand = 0 := by
    unfold skillPercent
    rw [h1, h2]
    norm_num
  have h4 : expPercent req blankCand = 100 := by
    unfold expPercent
    rw [hme]
  have hrej : eduReject req blankCand = false := by
    unfold eduReject reqEduOf
    rw [hed]
    decide
  have h5 : eduPercent req blankCand = 100 := by
    simp [eduPercent, hrej]
  have h6 : keywordPercent req blankCand = 100 := by
    have : reqKeywordsOf req = [] := by
      unfold reqKeywordsOf
      rw [hk]
      rfl
    simp [keywordPercent, this]
  unfold rawScore
  rw [h3, h4, h5, h6]
  norm_num

/-- C4: in strict mode `passed` holds exactly when the rejection-reason list is
empty and the (unrounded) composite score reaches the minimum score — so any
candidate with a rejection reason fails regardless of score — while in ranking
mode `passed` holds exactly when the score reaches the minimum, independent of
the rejection reasons, which are still reported. -/
theorem passed_mode_semantics :
    ∀ (req : FilterRequest) (r : CandidateRecord),
      (req.mode = "strict" →
        ((scoreCandidate req r).passed = true ↔
          (scoreCandidate req r).reject_reasons = [] ∧
            minScoreOf req ≤ rawScore req r)) ∧
      (req.mode = "strict" → (scoreCandidate req r).reject_reasons ≠ [] →
        (scoreCandidate req r).passed = false) ∧
      (req.mode = "ranking" →
        (((scoreCandidate req r).passed = true ↔ minScoreOf req ≤ rawScore req r) ∧
          (scoreCandidate req r).reject_reasons = rejectReasons req r)) := by
  intro req r
  have hp : (scoreCandidate req r).passed = passedOf req r := rfl
  have hrr : (scoreCandidate req r).reject_reasons = rejectReasons req r := rfl
  refine ⟨fun hs => ?_, fun hs hne => ?_, fun hr => ⟨?_, hrr⟩⟩
  · rw [hp, hrr]
    simp [passedOf, hs]
  · rw [hp]
    rw [hrr] at hne
    simp [passedOf, hs, hne]
  · rw [hp]
    have hb : (req.mode == "strict") = false := by
      simp [hr]
    simp [passedOf, hb]

/-- Witness for C4: a candidate missing a required skill fails in strict mode
although its score clears the minimum, and passes the same criteria in ranking
mode. -/
theorem passed_mode_semantics_witness :
    (scoreCandidate strictReq blankCand).passed = false ∧
    (scoreCandidate rankingReq blankCand).passed = true := by
  constructor
  · exact (passed_mode_semantics strictReq blankCand).2.1 rfl (by decide)
  · apply ((passed_mode_semantics rankingReq blankCand).2.2 rfl).1.mpr
    rw [zeta_blank_rawScore rankingReq rfl rfl rfl rfl]
    norm_num [minScoreOf, rankingReq]

/-- C10: for any mode string other than `"strict"` — including `"ranking"` but
also unrecognized or differently-capitalized strings — `passed` is decided
solely by score ≥ minimum score, and the mode string is echoed back unchanged
in the result. -/
theorem nonstrict_mode_is_ranking :
    ∀ (req : FilterRequest) (r : CandidateRecord), req.mode ≠ "strict" →
      (scoreCandidate req r).passed = decide (minScoreOf req ≤ rawScore req r) ∧
      (scoreCandidate req r).mode_used = req.mode := by
  intro req r h
  refine ⟨?_, rfl⟩
  show passedOf req r = _
  have hb : (req.mode == "strict") = false := by simp [h]
  simp [passedOf, hb]

/-- Witness for C10: the capitalized mode string `"Strict"` is not validated
away; it selects the ranking rule and is echoed back. -/
theorem nonstrict_mode_is_ranking_witness :
    oddModeReq.mode ≠ "strict" ∧
    (scoreCandidate oddModeReq blankCand).passed = true ∧
    (scoreCandidate oddModeReq blankCand).mode_used = "Strict" := by
  have h := nonstrict_mode_is_ranking oddModeReq blankCand (by decide)
  refine ⟨by decide, ?_, h.2⟩
  rw [h.1]
  rw [decide_eq_true_eq]
  rw [zeta_blank_rawScore oddModeReq rfl rfl rfl rfl]
  norm_num [minScoreOf, oddModeReq]

/-- C8: an empty required-skills list yields a skills sub-percentage of 100 and
an empty required-keywords list yields a keyword sub-percentage of 100, for
every candidate; the dividing branch of each sub-percentage is guarded by the
non-emptiness test, so an empty criterion never divides by zero. -/
theorem empty_criteria_vacuous_100 :
    ∀ (req : FilterRequest) (r : CandidateRecord),
      (req.skills = [] → skillPercent req r = 100) ∧
      (req.keywords = [] → keywordPercent req r = 100) := by
  intro req r
  constructor
  · intro h
    simp [skillPercent, reqSkillsOf, h]
  · intro h
    simp [keywordPercent, reqKeywordsOf, h]

/-- Witness for C8: with both criterion lists empty both sub-percentages are
100. -/
theorem empty_criteria_vacuous_100_witness :
    skillPercent emptyCriteriaReq blankCand = 100 ∧
    keywordPercent emptyCriteriaReq blankCand = 100 :=
  ⟨(empty_criteria_vacuous_100 emptyCriteriaReq blankCand).1 rfl,
   (empty_criteria_vacuous_100 emptyCriteriaReq blankCand).2 rfl⟩

/-- C9: a non-empty required-education token outside the five canonical levels
marks the education criterion as unmet for every candidate — the education
sub-percentage is 0 and an education rejection reason is in the reason list —
whether or not a level was detected, and (the embedding being total) no
exception is raised. -/
theorem unrecognized_education_always_rejects :
    ∀ (req : FilterRequest) (r : CandidateRecord),
      reqEduOf req ≠ "" → reqEduOf req ∉ LEVELS →
        eduPercent req r = 0 ∧
        eduReason req r ∈ (scoreCandidate req r).reject_reasons := by
  intro req r hne hcan
  have hrej : eduReject req r = true := by
    unfold eduReject
    rw [if_pos hne]
    cases detect_degree_level r.education with
    | none => rfl
    | some found =>
        simp only
        rw [if_neg (by simpa using hcan)]
  refine ⟨by simp [eduPercent, hrej], ?_⟩
  show eduReason req r ∈ rejectReasons req r
  unfold rejectReasons
  rw [if_pos hrej]
  simp

/-- Witness for C9: required education `"bootcamp"` rejects a candidate whose
detected level is `bachelor`. -/
theorem unrecognized_education_always_rejects_witness :
    detect_degree_level bachelorCand.education = some "bachelor" ∧
    eduPercent badEduReq bachelorCand = 0 ∧
    eduReason badEduReq bachelorCand ∈
      (scoreCandidate badEduReq bachelorCand).reject_reasons := by
  have h := unrecognized_education_always_rejects badEduReq bachelorCand
    (by decide) (by decide)
  exact ⟨by decide, h.1, h.2⟩

/-- Evaluation of rounding from floor bounds. -/
theorem round2_eval (q : ℚ) (z : ℤ) (h1 : (z : ℚ) ≤ q * 100 + 1 / 2)
    (h2 : q * 100 + 1 / 2 < z + 1) : round2 q = (z : ℚ) / 100 := by
  unfold round2
  rw [round_eq]
  congr 2
  exact Int.floor_eq_iff.mpr ⟨h1, h2⟩

/-- The value of `diff_years` is non-negative. -/
theorem diff_years_nonneg (s e : Int) : 0 ≤ diff_years s e := le_max_left 0 _

/-- The total duration of any interval list is non-negative. -/
theorem totalYears_nonneg (l : List (Int × Int)) : 0 ≤ totalYears l := by
  apply List.sum_nonneg
  intro x hx
  obtain ⟨p, _, rfl⟩ := List.mem_map.mp hx
  exact diff_years_nonneg p.1 p.2

/-- A left fold of `min` stays below a left fold of `max` (from ordered
seeds). -/
theorem foldl_min_le_foldl_max :
    ∀ (l : List Int) (a b : Int), b ≤ a → l.foldl min b ≤ l.foldl max a := by
  intro l
  induction l with
  | nil => intro a b h; simpa using h
  | cons c t ih =>
      intro a b h
      exact ih _ _ (le_trans (le_trans (min_le_left b c) h) (le_max_left a c))

/-- C2: whenever the date-range extraction finds at least one valid interval,
`estimate_experience_years` returns the merged, capped, rounded total of those
intervals, for every sentence segmentation — so the sentence-count and
year-difference fallbacks never influence the result. -/
theorem dated_ranges_take_priority :
    ∀ (now : Int) (text : String), rangesOf now text ≠ [] →
      ∀ sents : String → List String,
        estimate_experience_years sents now text =
          round2 (min (totalYears (merge_ranges (rangesOf now text))) 50) := by
  intro now text h sents
  have hne : (rangesOf now text).isEmpty = false := by
    cases hr : rangesOf now text with
    | nil => exact absurd hr h
    | cons a l => rfl
  simp only [estimate_experience_years, hne, Bool.false_eq_true, if_false]

/-- Witness for C2: a text holding a dated range, an "experience" sentence and
two extra bare years is estimated from the dated range alone (1.0 years),
with the whole text supplied as one "experience"-containing sentence. -/
theorem dated_ranges_take_priority_witness :
    rangesOf 738886 "I have experience. Jan 2020 - Jan 2021. 1990 1995" ≠ [] ∧
    estimate_experience_years (fun t => [t]) 738886
      "I have experience. Jan 2020 - Jan 2021. 1990 1995" = 1 := by
  have hr : rangesOf 738886 "I have experience. Jan 2020 - Jan 2021. 1990 1995" =
      [(737425, 737791)] := by decide
  have hne : rangesOf 738886 "I have experience. Jan 2020 - Jan 2021. 1990 1995" ≠ [] := by
    rw [hr]
    exact List.cons_ne_nil _ _
  refine ⟨hne, ?_⟩
  rw [dated_ranges_take_priority 738886 _ hne, hr]
  rw [show merge_ranges [(737425, 737791)] = [(737425, 737791)] from by decide]
  have ht : totalYears [(737425, 737791)] = 488 / 487 := by
    unfold totalYears diff_years
    simp only [List.map_cons, List.map_nil, List.sum_cons, List.sum_nil]
    rw [max_eq_right (by norm_num : (0 : ℚ) ≤ ((737791 - 737425 : Int) : ℚ) / (36525 / 100))]
    norm_num
  rw [ht, min_eq_left (by norm_num : (488 : ℚ) / 487 ≤ 50)]
  rw [round2_eval (488 / 487) 100 (by norm_num) (by norm_num)]
  norm_num

/-- C3 (evaluation at the failing input): on the text `"2018 and 2021"` — no
dated ranges, no "experience" sentence — the year-difference fallback sees the
`findall` group matches `["20", "20"]` (the century prefixes, not the years),
so the estimate is 0.0, not 3.0. -/
theorem year_diff_fallback_century_bug :
    yearsFoundOf "2018 and 2021" = [20, 20] ∧
    rangesOf 738886 "2018 and 2021" = [] ∧
    estimate_experience_years (fun t => [t]) 738886 "2018 and 2021" = 0 := by
  have h1 : (rangesOf 738886 "2018 and 2021").isEmpty = true := by decide
  have h2 : (((fun (t : String) => [t]) "2018 and 2021").filter
      fun st => isSubstrS "experience" (lowerS st)) = [] := by decide
  have h3 : yearsFoundOf "2018 and 2021" = [20, 20] := by decide
  refine ⟨h3, by decide, ?_⟩
  simp only [estimate_experience_years, h1, if_true, h2, List.isEmpty_nil, h3]
  norm_num

/-- C7: for every sentence segmentation, current date and text, the estimated
experience years lie between 0 and 50, whichever tier produces them. -/
theorem estimate_years_bounds :
    ∀ (sents : String → List String) (now : Int) (text : String),
      0 ≤ estimate_experience_years sents now text ∧
        estimate_experience_years sents now text ≤ 50 := by
  intro sents now text
  simp only [estimate_experience_years]
  split
  · -- no dated range: the two fallbacks and the 0.0 default
    split
    · -- no "experience" sentence: year-difference fallback
      split
      · rename_i y z rest _
        constructor
        · have h0 : (0 : ℤ) ≤ min ((rest.foldl max (max y z)) - (rest.foldl min (min y z))) 50 := by
            apply le_min
            · have := foldl_min_le_foldl_max rest (max y z) (min y z)
                (min_le_max)
              omega
            · norm_num
          exact_mod_cast h0
        · have h50 : min ((rest.foldl max (max y z)) - (rest.foldl min (min y z))) 50 ≤ (50 : ℤ) :=
            min_le_right _ _
          exact_mod_cast h50
      · norm_num
    · -- "experience" sentences: capped count
      rename_i hcnt
      constructor
      · positivity
      · have h40 : ((List.filter (fun st => isSubstrS "experience" (lowerS st))
            (sents text)).length ⊓ 40 : ℕ) ≤ 50 :=
          le_trans (min_le_right _ _) (by norm_num)
        exact_mod_cast h40
  · -- dated ranges: merged, capped, rounded total
    constructor
    · exact round2_nonneg (le_min (totalYears_nonneg _) (by norm_num))
    · exact round2_le_50 (min_le_right _ _)

/-! ### Lemmas for the idempotence of `merge_ranges` -/

/-- The merging loop keeps the start of the accumulator interval as the head
of its output. -/
theorem mergeLoop_head :
    ∀ (rest : List (Int × Int)) (cur : Int × Int),
      ∃ e rs, mergeLoop cur rest = (cur.1, e) :: rs := by
  intro rest
  induction rest with
  | nil => intro cur; exact ⟨cur.2, [], rfl⟩
  | cons c t ih =>
      intro cur
      obtain ⟨ps, pe⟩ := cur
      obtain ⟨cs, ce⟩ := c
      by_cases h : cs ≤ pe
      · obtain ⟨e, rs, heq⟩ := ih (ps, max pe ce)
        exact ⟨e, rs, by simp only [mergeLoop, if_pos h]; exact heq⟩
      · exact ⟨pe, mergeLoop (cs, ce) t, by simp only [mergeLoop, if_neg h]⟩

/-- On a start-sorted input, consecutive output intervals of the merging loop
have non-decreasing starts separated by strict gaps. -/
theorem mergeLoop_chain :
    ∀ (rest : List (Int × Int)) (cur : Int × Int),
      List.Sorted leStart (cur :: rest) →
      List.Chain' (fun a b : Int × Int => a.1 ≤ b.1 ∧ a.2 < b.1)
        (mergeLoop cur rest) := by
  intro rest
  induction rest with
  | nil => intro cur _; simp [mergeLoop]
  | cons c t ih =>
      intro cur hs
      obtain ⟨ps, pe⟩ := cur
      obtain ⟨cs, ce⟩ := c
      rw [List.sorted_cons] at hs
      obtain ⟨hall, hs'⟩ := hs
      by_cases h : cs ≤ pe
      · rw [show mergeLoop (ps, pe) ((cs, ce) :: t) = mergeLoop (ps, max pe ce) t
          from by simp only [mergeLoop, if_pos h]]
        apply ih
        rw [List.sorted_cons]
        rw [List.sorted_cons] at hs'
        exact ⟨fun b hb => hall b (List.mem_cons_of_mem _ hb), hs'.2⟩
      · rw [show mergeLoop (ps, pe) ((cs, ce) :: t) = (ps, pe) :: mergeLoop (cs, ce) t
          from by simp only [mergeLoop, if_neg h]]
        obtain ⟨e, rs, heq⟩ := mergeLoop_head t (cs, ce)
        rw [heq]
        rw [List.chain'_cons]
        refine ⟨⟨?_, ?_⟩, ?_⟩
        · exact hall (cs, ce) (List.mem_cons_self _ _)
        · exact lt_of_not_le h
        · rw [← heq]
          exact ih (cs, ce) hs'

/-- On input already satisfying the gap invariant, the merging loop is the
identity. -/
theorem mergeLoop_id_of_chain :
    ∀ (rest : List (Int × Int)) (cur : Int × Int),
      List.Chain' (fun a b : Int × Int => a.1 ≤ b.1 ∧ a.2 < b.1) (cur :: rest) →
      mergeLoop cur rest = cur :: rest := by
  intro rest
  induction rest with
  | nil => intro cur _; rfl
  | cons c t ih =>
      intro cur hc
      obtain ⟨ps, pe⟩ := cur
      obtain ⟨cs, ce⟩ := c
      rw [List.chain'_cons] at hc
      have hlt : ¬ cs ≤ pe := not_le.mpr hc.1.2
      rw [show mergeLoop (ps, pe) ((cs, ce) :: t) = (ps, pe) :: mergeLoop (cs, ce) t
        from by simp only [mergeLoop, if_neg hlt]]
      rw [ih (cs, ce) hc.2]

/-- C5: `merge_ranges` is idempotent — applying it to its own output returns
the output unchanged (so in particular the same set of intervals). -/
theorem merge_ranges_idempotent :
    ∀ ranges : List (Int × Int),
      merge_ranges (merge_ranges ranges) = merge_ranges ranges := by
  intro l
  cases hs : l.insertionSort leStart with
  | nil =>
      have h0 : merge_ranges l = [] := by unfold merge_ranges; rw [hs]
      rw [h0]
      rfl
  | cons r rs =>
      have hml : merge_ranges l = mergeLoop r rs := by unfold merge_ranges; rw [hs]
      have hsort : List.Sorted leStart (r :: rs) := by
        rw [← hs]
        exact List.sorted_insertionSort leStart l
      have hchain := mergeLoop_chain rs r hsort
      have hsorted2 : List.Sorted leStart (mergeLoop r rs) := by
        have hcle : List.Chain' leStart (mergeLoop r rs) :=
          hchain.imp (fun a b h => h.1)
        exact List.chain'_iff_pairwise.mp hcle
      rw [hml]
      unfold merge_ranges
      rw [List.Sorted.insertionSort_eq hsorted2]
      cases hm : mergeLoop r rs with
      | nil => rfl
      | cons r' rs' =>
          apply mergeLoop_id_of_chain
          rw [← hm]
          exact hchain

/-! ### Lemmas for the handling of unparseable month names -/

/-- An ASCII letter is not a whitespace character. -/
theorem letter_not_space {c : Char} (h : isAsciiLetter c = true) :
    isSpaceChar c = false := by
  by_contra hc
  have hsp : isSpaceChar c = true := by
    revert hc
    cases isSpaceChar c <;> simp
  simp only [isSpaceChar, Bool.or_eq_true, beq_iff_eq] at hsp
  rcases hsp with ((((rfl | rfl) | rfl) | rfl) | rfl) | rfl <;>
    exact absurd h (by decide)

/-- Python `str.strip()` leaves a `<letters> <4 digits>` token unchanged. -/
theorem pyStrip_monthToken (mon : List Char)
    (hall : ∀ c ∈ mon, isAsciiLetter c = true) (h3 : 3 ≤ mon.length) :
    pyStrip (mon ++ (' ' :: ['2', '0', '2', '0'])) =
      mon ++ (' ' :: ['2', '0', '2', '0']) := by
  obtain ⟨a, mon', rfl⟩ : ∃ a mon', mon = a :: mon' := by
    cases mon with
    | nil => simp at h3
    | cons a t => exact ⟨a, t, rfl⟩
  have hna : ¬ isSpaceChar a = true := by
    rw [letter_not_space (hall a (List.mem_cons_self _ _))]
    simp
  have hrev : ((a :: mon') ++ (' ' :: ['2', '0', '2', '0'])).reverse =
      '0' :: ('2' :: ('0' :: ('2' :: (' ' :: (a :: mon').reverse)))) := by
    rw [List.reverse_append]
    rfl
  unfold pyStrip
  rw [List.cons_append, List.dropWhile_cons_of_neg hna, ← List.cons_append, hrev]
  rw [List.dropWhile_cons_of_neg (by decide)]
  rw [← hrev, List.reverse_reverse]

/-- The anchored month-year match on a `<letters> <4 digits>` token returns
the letter block and the digit block. -/
theorem matchMonthYearGroups_monthToken (mon : List Char)
    (hall : ∀ c ∈ mon, isAsciiLetter c = true) (h3 : 3 ≤ mon.length)
    (h9 : mon.length ≤ 9) :
    matchMonthYearGroups (mon ++ (' ' :: ['2', '0', '2', '0'])) =
      some (mon, ['2', '0', '2', '0']) := by
  have htw : (mon ++ (' ' :: ['2', '0', '2', '0'])).takeWhile isAsciiLetter = mon := by
    rw [List.takeWhile_append_of_pos hall]
    rw [List.takeWhile_cons_of_neg (by decide)]
    exact List.append_nil mon
  simp only [matchMonthYearGroups, htw]
  rw [if_pos (by simp [h3, h9])]
  rw [List.drop_left]
  rfl

/-- Evaluating `parse_month_year` on a `<letters> <4 digits>` token with year 2020: the
date is built from the `MONTH_MAP` lookup of the token, defaulting to
January. -/
theorem parse_month_year_monthToken (mon : List Char)
    (hall : ∀ c ∈ mon, isAsciiLetter c = true) (h3 : 3 ≤ mon.length)
    (h9 : mon.length ≤ 9) :
    parse_month_year (String.mk (mon ++ (' ' :: ['2', '0', '2', '0']))) =
      some (toOrdinal 2020
        ((((monthMapGet (lowerL (mon.take 3))).orElse
            (fun _ => monthMapGet (lowerL mon))).getD 1)) 1) := by
  have hcs : (String.mk (mon ++ (' ' :: ['2', '0', '2', '0']))).toList =
      mon ++ (' ' :: ['2', '0', '2', '0']) := rfl
  have hstrip := pyStrip_monthToken mon hall h3
  have hmatch := matchMonthYearGroups_monthToken mon hall h3 h9
  have hne : (mon ++ (' ' :: ['2', '0', '2', '0'])).isEmpty = false := by
    cases mon with
    | nil => simp at h3
    | cons a t => rfl
  simp only [parse_month_year, hcs, hstrip, hne, hmatch]
  rfl

/-- Counterexample to C6: the month name `Foo` is not in `MONTH_MAP`, yet
`parse_month_year` does not discard the token — it parses it as January — and
the range `"Foo 2020 - Bar 2021"` contributes the interval Jan 2020 .. Jan
2021 to the extraction. -/
theorem unparseable_month_contributes_interval :
    monthMapGet (lowerL "Foo".toList) = none ∧
    monthMapGet (lowerL "Bar".toList) = none ∧
    parse_month_year "Foo 2020" = some (toOrdinal 2020 1 1) ∧
    rangesOf 0 "Foo 2020 - Bar 2021" =
      [(toOrdinal 2020 1 1, toOrdinal 2021 1 1)] := by
  refine ⟨by decide, by decide, by decide, by decide⟩

/-- C6 (amended): in a month-year token the month may be abbreviated to its
first three letters case-insensitively — the `MONTH_MAP` lookup of the lowered
three-letter prefix decides the month — but a token whose month name is not
recognized is *not* discarded: the month defaults to January and the token
still parses (so the match still contributes an interval). -/
theorem month_abbreviation_and_default :
    ∀ mon : List Char, (∀ c ∈ mon, isAsciiLetter c = true) →
      3 ≤ mon.length → mon.length ≤ 9 →
      (∀ m : Nat, monthMapGet (lowerL (mon.take 3)) = some m →
        parse_month_year (String.mk (mon ++ (' ' :: ['2', '0', '2', '0']))) =
          some (toOrdinal 2020 m 1)) ∧
      (monthMapGet (lowerL (mon.take 3)) = none →
        monthMapGet (lowerL mon) = none →
        parse_month_year (String.mk (mon ++ (' ' :: ['2', '0', '2', '0']))) =
          some (toOrdinal 2020 1 1)) := by
  intro mon hall h3 h9
  have key := parse_month_year_monthToken mon hall h3 h9
  constructor
  · intro m hm
    rw [key, hm]
    rfl
  · intro hm1 hm2
    rw [key, hm1, hm2]
    rfl

/-- Witness for the amended C6: `jAN` abbreviates January case-insensitively,
and the unrecognized month `Xyz` defaults to January 2020 instead of being
discarded. -/
theorem month_abbreviation_and_default_witness :
    parse_month_year "jANuary 2020" = some (toOrdinal 2020 1 1) ∧
    parse_month_year "Xyz 2020" = some (toOrdinal 2020 1 1) := by
  constructor
  · have h := (month_abbreviation_and_default
      ['j', 'A', 'N', 'u', 'a', 'r', 'y'] (by decide) (by decide) (by decide)).1
      1 (by decide)
    rw [show ("jANuary 2020" : String) =
      String.mk (['j', 'A', 'N', 'u', 'a', 'r', 'y'] ++ (' ' :: ['2', '0', '2', '0']))
      from by decide]
    exact h
  · have h := (month_abbreviation_and_default ['X', 'y', 'z']
      (by decide) (by decide) (by decide)).2 (by decide) (by decide)
    rw [show ("Xyz 2020" : String) =
      String.mk (['X', 'y', 'z'] ++ (' ' :: ['2', '0', '2', '0'])) from by decide]
    exact h

end ResumeParser
